import Mathlib

/-!
Verification development for the fantasy-football-metrics-weekly-report
data-normalization and analytics pipeline.

The definitions below are a shallow embedding of the relevant parts of
`ffmwr/dao/platforms/fleaflicker.py` (median computation, week-window epoch
mapping, activity / trade / per-team transaction normalization) and
`ffmwr/report/data.py` (z-score table, weekly transactions and lineup
awards).  Python floats are modelled as rationals; Python `dict`s keyed by
`str(week)` are modelled as association lists keyed by the week number
(`str` of a natural number is injective, so nothing is lost); `None` is
`Option.none`; Python truthiness (`if x:`) is modelled explicitly wherever
the source relies on it (`0`, `""`, `None` and empty collections are falsy).
-/

/- ===================================================================
   Python-value helpers
   =================================================================== -/

/-- Floor of a rational as an integer, computed with floor division on the
reduced fraction (denominator is positive). -/
def ratFloor (q : ℚ) : ℤ := Int.fdiv q.num q.den

/-- Bankers rounding (round half to even) of a rational to an integer,
matching the behaviour of the Python builtin `round`. -/
def roundHalfEven (q : ℚ) : ℤ :=
  let f : ℤ := ratFloor q
  let r : ℚ := q - (f : ℚ)
  if r < 1/2 then f
  else if 1/2 < r then f + 1
  else if f % 2 = 0 then f else f + 1

/-- Python `round(x, 2)`: round to two decimal places, half to even. -/
def round2 (q : ℚ) : ℚ := (roundHalfEven (q * 100) : ℚ) / 100

/-- Insert an element into an already sorted list, placing it after every
element that compares less-or-equal, so that a fold over the input yields a
stable sort. -/
def stableInsert {α : Type} (le : α → α → Bool) (a : α) : List α → List α
  | [] => [a]
  | b :: bs => if le b a then b :: stableInsert le a bs else a :: b :: bs

/-- Python `sorted`, a stable sort with respect to a boolean total preorder:
elements comparing equal keep their original order. -/
def pySorted {α : Type} (le : α → α → Bool) (l : List α) : List α :=
  l.foldl (fun acc a => stableInsert le a acc) []

/-- Python `statistics.median`: sort ascending; an odd-length list yields the
middle element, an even-length list the mean of the two middle elements.
The source only calls it on nonempty lists (`if scores`); on `[]` this
definition returns `0` but is never relied upon there. -/
def pyMedian (l : List ℚ) : ℚ :=
  let s := pySorted (fun a b => decide (a ≤ b)) l
  let n := s.length
  if n % 2 = 1 then s.getD (n / 2) 0
  else (s.getD (n / 2 - 1) 0 + s.getD (n / 2) 0) / 2

/-- Python `or` on two optional numbers: a present value of `0` is falsy and
falls through to the second alternative. -/
def pyOrQ : Option ℚ → Option ℚ → Option ℚ
  | some x, b => if x = 0 then b else some x
  | none, b => b

/-- Python `str(...)` applied to an optional integer id: `str(None)` is the
(truthy) string `"None"`. -/
def pyStr : Option ℕ → String
  | some n => toString n
  | none => "None"

/-- Python `x or default` for an optional string: `None` and `""` are falsy. -/
def pyStrOr (o : Option String) (d : String) : String :=
  match o with
  | some s => if s = "" then d else s
  | none => d

/-- Python truthiness of an optional integer (`if val:`). -/
def pyTruthyZ : Option ℤ → Bool
  | some z => z != 0
  | none => false

/-- Python falsiness of an optional week number (`if not week_ord:`):
`None` and `0` are both falsy. -/
def pyFalsyWeek : Option ℕ → Bool
  | none => true
  | some 0 => true
  | some (_ + 1) => false

/-- Whether the first character list occurs at the head of the second. -/
def charsHasPref : List Char → List Char → Bool
  | [], _ => true
  | _ :: _, [] => false
  | a :: as, b :: bs => a == b && charsHasPref as bs

/-- Whether the first character list occurs anywhere inside the second. -/
def charsHasSub (n : List Char) : List Char → Bool
  | [] => charsHasPref n []
  | b :: bs => charsHasPref n (b :: bs) || charsHasSub n bs

/-- Python `needle in haystack` on strings (substring test). -/
def strHasSub (needle hay : String) : Bool := charsHasSub needle.data hay.data

/- ===================================================================
   Weekly median computation
   (fleaflicker.py, map_data_to_base, lines 200-232)
   =================================================================== -/

/-- One side's score object in the Fleaflicker scoreboard payload
(`matchup["homeScore"/"awayScore"]`): the three fields consulted by the
parsing chain
`(score_obj.get("score") or {}).get("value") or score_obj.get("value") or
score_obj.get("formatted")`.  A missing field, or a value that `float(...)`
cannot convert, is `none`. -/
structure ScoreObj where
  scoreValue : Option ℚ
  value : Option ℚ
  formatted : Option ℚ
deriving DecidableEq

/-- A scoreboard game, reduced to the two score objects the median
computation reads. -/
structure FleaGame where
  homeScore : Option ScoreObj
  awayScore : Option ScoreObj
deriving DecidableEq

/-- Parse one side's score (lines 207-226): the Python `or`-chain over the
three candidate fields, so a present value of `0` falls through; a missing
score object (`matchup.get(side) or {}`) parses to nothing. -/
def parseSideScore (o : Option ScoreObj) : Option ℚ :=
  match o with
  | none => none
  | some so => pyOrQ (pyOrQ so.scoreValue so.value) so.formatted

/-- All scores parsed for one week: home then away side of every game, in
game order, dropping sides that failed to parse (lines 204-226). -/
def weekScores (games : List FleaGame) : List ℚ :=
  (games.map (fun g =>
    (match parseSideScore g.homeScore with | some v => [v] | none => [])
      ++ (match parseSideScore g.awayScore with | some v => [v] | none => []))).flatten

/-- The per-week median map built by map_data_to_base (lines 200-232):
for `wk` in `range(start_week, min(week_for_report, num_regular_season_weeks)
+ 1)`, the entry for `wk` is `round(median(scores), 2)` when at least one
score parsed and `None` otherwise.  Note the key is inserted in both cases. -/
def weekMedianValue (gamesByWeek : ℕ → List FleaGame) (wk : ℕ) : Option ℚ :=
  let scores := weekScores (gamesByWeek wk)
  if scores.isEmpty then none else some (round2 (pyMedian scores))

/-- The association of each week in the iterated range with its stored
median entry (`median_score_by_week[str(wk)] = weekly_median`). -/
def computeMedians (startWeek weekForReport numRegWeeks : ℕ)
    (gamesByWeek : ℕ → List FleaGame) : List (ℕ × Option ℚ) :=
  (List.range' startWeek (min weekForReport numRegWeeks + 1 - startWeek)).map
    (fun wk => (wk, weekMedianValue gamesByWeek wk))

/- ===================================================================
   Cumulative median record
   (fleaflicker.py, map_data_to_base, lines 758-781)
   =================================================================== -/

/-- Modelled from the spec: the record entity of `ffmwr/models/base/model.py`
(`BaseRecord`), which is not part of the sources provided.  Spec section 3:
"Record: wins, losses, ties, percentage, points-for, points-against, ...";
spec section 4.4 describes the explicit add-operations used by the median
record fold: `add_points_for` / `add_points_against` add their argument to
the corresponding running total, and `add_win` / `add_loss` / `add_tie`
increment the corresponding counter.  Only the fields touched by the fold
are modelled. -/
structure BaseRecord where
  wins : ℕ := 0
  losses : ℕ := 0
  ties : ℕ := 0
  pointsFor : ℚ := 0
  pointsAgainst : ℚ := 0
deriving DecidableEq

def addPointsFor (r : BaseRecord) (x : ℚ) : BaseRecord :=
  { r with pointsFor := r.pointsFor + x }

def addPointsAgainst (r : BaseRecord) (x : ℚ) : BaseRecord :=
  { r with pointsAgainst := r.pointsAgainst + x }

def addWin (r : BaseRecord) : BaseRecord := { r with wins := r.wins + 1 }

def addLoss (r : BaseRecord) : BaseRecord := { r with losses := r.losses + 1 }

def addTie (r : BaseRecord) : BaseRecord := { r with ties := r.ties + 1 }

/-- One week's fold into a team's cumulative median record (lines 767-781):
when the week has a median `m`, add `(points - m)` to points-for, add
`(-points_against + m)` to points-against (replacing points-against by `m`),
and credit a win / loss / tie by comparing `points` with `m`; when the week
has no median the record is left untouched. -/
def medianRecordStep (rec : BaseRecord) (teamPoints : ℚ)
    (weekMedian : Option ℚ) : BaseRecord :=
  match weekMedian with
  | none => rec
  | some m =>
    let r1 := addPointsFor rec (teamPoints - m)
    let r2 := addPointsAgainst r1 (-r1.pointsAgainst + m)
    if teamPoints > m then addWin r2
    else if teamPoints < m then addLoss r2
    else addTie r2

/- ===================================================================
   Week-window resolver (_map_epoch)
   (fleaflicker.py, lines 180-198, 314-323, 426-435, 546-555)
   =================================================================== -/

/-- End of the window that starts at `s`, given the remaining (later) sorted
week entries: one millisecond before the next known week's start, or
`start + 8 days` for the last known week. -/
def weekWindowEnd (s : ℤ) (rest : List (ℕ × ℤ)) : ℤ :=
  match rest with
  | [] => s + 8 * 24 * 60 * 60 * 1000
  | (_, s2) :: _ => s2 - 1

/-- The linear scan of `_map_epoch` over the week entries already sorted by
week number: return the first window whose `[start, end]` interval contains
the timestamp, else `none`. -/
def mapEpochGo : List (ℕ × ℤ) → ℤ → Option ℕ
  | [], _ => none
  | (w, s) :: rest, ts =>
    if s ≤ ts ∧ ts ≤ weekWindowEnd s rest then some w else mapEpochGo rest ts

/-- The `sorted(week_start_ts.keys())` step: sort the (distinct-keyed) week
start table by week number. -/
def sortWst (wst : List (ℕ × ℤ)) : List (ℕ × ℤ) :=
  pySorted (fun a b => decide (a.1 ≤ b.1)) wst

/-- `_map_epoch(ts_ms)`: sort the known week windows by week number and scan
them for the first window containing the timestamp. -/
def mapEpoch (wst : List (ℕ × ℤ)) (ts : ℤ) : Option ℕ :=
  mapEpochGo (sortWst wst) ts

/-- `min(week_start_ts.values())` (lines 398, 516): the earliest known week
window start, or `none` when no windows are known. -/
def earliestStart (wst : List (ℕ × ℤ)) : Option ℤ :=
  match wst.map Prod.snd with
  | [] => none
  | x :: xs => some (xs.foldl min x)

/- ===================================================================
   Transaction normalization: weekly buckets
   (fleaflicker.py, map_data_to_base, lines 265-267, 352-368,
    460-477, 566-583)
   =================================================================== -/

/-- The four bucket kinds of `transactions_by_week[wk]`. -/
inductive TxKind
  | adds
  | claims
  | drops
  | trades
deriving DecidableEq

/-- A normalized add / claim / drop event
(`{"team_id": ..., "player_id": ...}`). -/
structure MoveEvent where
  teamId : String
  playerId : String
deriving DecidableEq

/-- A normalized trade row appended by the FetchTrades pass (lines 469-477). -/
structure TradeRow where
  teamId : String
  playersReceived : List String
  playersSent : List String
  tradeTs : Option ℤ
  tradeId : Option ℕ
deriving DecidableEq

/-- A requested game inside a player block: the week ordinal
(`period.ordinal`, `none` when missing or unparsable) and the period start
(`period.startEpochMilli`, read by the trade normalization). -/
structure RequestedGame where
  ordinal : Option ℕ
  startEpochMilli : Option ℤ
deriving DecidableEq

/-- The `transaction.player` block of an activity item. -/
structure PlayerBlock where
  proPlayerId : Option ℕ
  requestedGames : List RequestedGame
deriving DecidableEq

/-- The `transaction` block of a league activity item.  `playersFirstProId`
models `(tx.get("players")[0].get("proPlayer") or {}).get("id")`: the outer
`Option` is whether `tx.get("players")` is present and nonempty (falsy
otherwise), the inner one whether the first player carries a proPlayer id. -/
structure ActivityTx where
  type : Option String
  teamId : Option ℕ
  player : Option PlayerBlock
  playersFirstProId : Option (Option ℕ)
deriving DecidableEq

/-- A league activity feed item (lines 270-302). -/
structure Activity where
  timeEpochMilli : ℤ
  transaction : Option ActivityTx
deriving DecidableEq

/-- Entries of a week's `trades` bucket: the activity pass appends the raw
activity item (line 368), the FetchTrades pass appends normalized rows
(line 469). -/
inductive TradeEntry
  | activityItem (a : Activity)
  | row (r : TradeRow)
deriving DecidableEq

/-- One week's normalized transaction buckets:
`{"adds": [], "claims": [], "drops": [], "trades": []}` (line 267). -/
structure TxBuckets where
  adds : List MoveEvent
  claims : List MoveEvent
  drops : List MoveEvent
  trades : List TradeEntry
deriving DecidableEq

def emptyBuckets : TxBuckets := ⟨[], [], [], []⟩

/-- `league.transactions_by_week`, keyed by week number. -/
abbrev TxWeeks := List (ℕ × TxBuckets)

/-- Lines 265-267: initialize the normalized transaction buckets for every
week in `range(start_week, num_regular_season_weeks + 1)`. -/
def initTxWeeks (startWeek numRegWeeks : ℕ) : TxWeeks :=
  (List.range' startWeek (numRegWeeks + 1 - startWeek)).map
    (fun wk => (wk, emptyBuckets))

def bucketAppendMove (b : TxBuckets) (k : TxKind) (e : MoveEvent) : TxBuckets :=
  match k with
  | .adds => { b with adds := b.adds ++ [e] }
  | .claims => { b with claims := b.claims ++ [e] }
  | .drops => { b with drops := b.drops ++ [e] }
  | .trades => b

def bucketAppendTrade (b : TxBuckets) (e : TradeEntry) : TxBuckets :=
  { b with trades := b.trades ++ [e] }

/-- Append a move event to the bucket of week `wk` when that week key is
present, and do nothing otherwise — the guard
`str(week_ord) in self.league.transactions_by_week` (line 353). -/
def txAppendMove (t : TxWeeks) (wk : ℕ) (k : TxKind) (e : MoveEvent) : TxWeeks :=
  t.map (fun p => if p.1 = wk then (p.1, bucketAppendMove p.2 k e) else p)

/-- Append a trade entry to the bucket of week `wk` when that week key is
present (guards at lines 353 and 468). -/
def txAppendTrade (t : TxWeeks) (wk : ℕ) (e : TradeEntry) : TxWeeks :=
  t.map (fun p => if p.1 = wk then (p.1, bucketAppendTrade p.2 e) else p)

/- ===================================================================
   Week resolution for activity and per-team transaction items
   (fleaflicker.py, lines 289-350 and 526-567)
   =================================================================== -/

/-- Candidate week ordinal of an activity transaction: the first requested
game's period ordinal (lines 296-301). -/
def activityWeekOrd (tx : ActivityTx) : Option ℕ :=
  match tx.player with
  | some pb =>
    match pb.requestedGames with
    | rg :: _ => rg.ordinal
    | [] => none
  | none => none

/-- The normalized pro player id of an activity transaction (lines 291-306):
`str((player_block.get("proPlayer") or {}).get("id"))` when the player block
is present — note `str(None)` is the truthy string `"None"` — else the first
entry of `tx.get("players")` when that list is present and nonempty. -/
def activityProPlayerId (tx : ActivityTx) : Option String :=
  match tx.player with
  | some pb => some (pyStr pb.proPlayerId)
  | none => tx.playersFirstProId.map pyStr

/-- Lines 307-341 (and identically 542-565): reconcile a platform week
ordinal with the epoch-window mapping.  With no known windows the ordinal
stands; a missing ordinal is replaced by the mapped week; a present ordinal
is overridden by the mapped week whenever the mapping exists (when the two
agree the override is the identity). -/
def resolveWeek (wst : List (ℕ × ℤ)) (ordinal : Option ℕ) (ts : ℤ) : Option ℕ :=
  if wst = [] then ordinal
  else
    match ordinal, mapEpoch wst ts with
    | none, mapped => mapped
    | some _, some m => some m
    | some o, none => some o

/-- The week an activity transaction is resolved to. -/
def activityResolvedWeek (wst : List (ℕ × ℤ)) (tx : ActivityTx) (ts : ℤ) :
    Option ℕ :=
  resolveWeek wst (activityWeekOrd tx) ts

/-- Lines 270-379 for a single activity item: season-window gate, week
resolution, falsy-week skip (`if not week_ord: continue`), then the
bucket append dispatched on the transaction type substring.  The
`league_transactions_by_team` move/trade tally (lines 370-379) feeds only
the per-team move counts and is not modelled. -/
def processActivity (wst : List (ℕ × ℤ)) (seasonLo seasonHi : ℤ)
    (t : TxWeeks) (a : Activity) : TxWeeks :=
  if seasonLo < a.timeEpochMilli ∧ a.timeEpochMilli < seasonHi then
    match a.transaction with
    | none => t
    | some tx =>
      let transactionType := pyStrOr tx.type "TRANSACTION_ADD"
      let teamId := pyStr tx.teamId
      let pid := activityProPlayerId tx
      let weekOrd := activityResolvedWeek wst tx a.timeEpochMilli
      if pyFalsyWeek weekOrd then t
      else
        let wk := weekOrd.getD 0
        if (match pid with | some s => s != "" | none => false) && teamId != "" then
          if strHasSub "DROP" transactionType then
            txAppendMove t wk .drops ⟨teamId, pid.getD ""⟩
          else if strHasSub "CLAIM" transactionType then
            txAppendMove t wk .claims ⟨teamId, pid.getD ""⟩
          else if strHasSub "ADD" transactionType then
            txAppendMove t wk .adds ⟨teamId, pid.getD ""⟩
          else if strHasSub "TRADE" transactionType then
            txAppendTrade t wk (.activityItem a)
          else t
        else t
  else t

/- ===================================================================
   Trade normalization (FetchTrades)
   (fleaflicker.py, map_data_to_base, lines 381-479)
   =================================================================== -/

/-- One obtained player inside a trade team entry: the proPlayer id and the
first requested game's `period.startEpochMilli`. -/
structure ObtainedPlayer where
  proId : Option ℕ
  reqStartMs : Option ℤ
deriving DecidableEq

/-- One participating team of a completed trade: the team id and its
`playersObtained` list. -/
structure TradeTeamSide where
  teamId : Option ℕ
  playersObtained : List ObtainedPlayer
deriving DecidableEq

/-- A completed trade from the FetchTrades feed, with the four candidate
timestamp fields read at lines 402-411. -/
structure FleaTrade where
  id : Option ℕ
  teams : List TradeTeamSide
  approvedOn : Option ℤ
  proposedOn : Option ℤ
  tentativeExecutionTime : Option ℤ
  executionTimeEpochMilli : Option ℤ
deriving DecidableEq

/-- Lines 402-411: the trade timestamp is the first truthy value among
`approvedOn`, `proposedOn`, `tentative_execution_time`,
`executionTimeEpochMilli`. -/
def tradeTs (tr : FleaTrade) : Option ℤ :=
  if pyTruthyZ tr.approvedOn then tr.approvedOn
  else if pyTruthyZ tr.proposedOn then tr.proposedOn
  else if pyTruthyZ tr.tentativeExecutionTime then tr.tentativeExecutionTime
  else if pyTruthyZ tr.executionTimeEpochMilli then tr.executionTimeEpochMilli
  else none

/-- The epoch-window mapping attempt through an obtained player's requested
game start (`_map_epoch(int(start_ms)) if start_ms else None`, line 441). -/
def reqMapped (wst : List (ℕ × ℤ)) (p : ObtainedPlayer) : Option ℕ :=
  match p.reqStartMs with
  | some sms => if sms = 0 then none else mapEpoch wst sms
  | none => none

/-- Lines 417-453, one iteration of the `playersObtained` loop: collect the
received player id, then try to map the trade timestamp, then the requested
game start, into a week; and as a last resort attribute a still-unmapped
trade whose timestamp predates the earliest known window start to
`start_week`.  The state is `(rec_ids, week_guess)`. -/
def tradePlayerStep (wst : List (ℕ × ℤ)) (startWeek : ℕ) (tTs : Option ℤ)
    (st : List String × Option ℕ) (p : ObtainedPlayer) :
    List String × Option ℕ :=
  let recIds := match p.proId with
    | some pid => st.1 ++ [toString pid]
    | none => st.1
  let wg := st.2
  if wst ≠ [] ∧ (pyTruthyZ tTs ∨ pyFalsyWeek wg) then
    let mapped : Option ℕ := match tTs with
      | some ts => if ts = 0 then none else mapEpoch wst ts
      | none => none
    let mapped : Option ℕ := match mapped with
      | some m => some m
      | none => reqMapped wst p
    let wg := match mapped with
      | some m => some m
      | none => wg
    let wg : Option ℕ := match wg, tTs, earliestStart wst with
      | none, some ts, some e => if ts < e then some startWeek else none
      | w, _, _ => w
    (recIds, wg)
  else (recIds, wg)

/-- The `(rec_ids, week_guess)` pair computed for one participating team
(the inner loop of lines 414-453). -/
def tradeTeamGuess (wst : List (ℕ × ℤ)) (startWeek : ℕ) (tTs : Option ℤ)
    (players : List ObtainedPlayer) : List String × Option ℕ :=
  players.foldl (tradePlayerStep wst startWeek tTs) ([], none)

/-- One team entry's contribution to `team_received` (lines 414-458): a
team entry with an empty received list or a falsy team id is skipped, and so
is a team entry whose `week_guess` is falsy (`if not week_guess: continue`)
— note only that entry is skipped, not the whole trade. -/
def tradeTeamStep (wst : List (ℕ × ℤ)) (startWeek : ℕ) (tTs : Option ℤ)
    (acc : List (String × List String × ℕ)) (entry : TradeTeamSide) :
    List (String × List String × ℕ) :=
  let teamId := pyStr entry.teamId
  let rw := tradeTeamGuess wst startWeek tTs entry.playersObtained
  if rw.1 ≠ [] ∧ teamId ≠ "" then
    match rw.2 with
    | none => acc
    | some 0 => acc
    | some w => acc ++ [(teamId, rw.1, w)]
  else acc

/-- Lines 413-458: the `team_received` list of `(team_id, rec_ids, week)`
triples. -/
def tradeTeamReceived (wst : List (ℕ × ℤ)) (startWeek : ℕ) (tr : FleaTrade) :
    List (String × List String × ℕ) :=
  tr.teams.foldl (tradeTeamStep wst startWeek (tradeTs tr)) []

/-- Lines 461-466: a team's sent list is the union (in list order) of every
other participating team's received list. -/
def sentIdsFor (received : List (String × List String × ℕ)) (idx : ℕ) :
    List String :=
  (received.enum.filterMap
    (fun q => if q.1 = idx then none else some q.2.2.1)).flatten

/-- Lines 399-477 for one completed trade: build the `team_received` list
and append one normalized trade row per entry into that entry's week bucket
(when the week key is present). -/
def processTrade (t : TxWeeks) (wst : List (ℕ × ℤ)) (startWeek : ℕ)
    (tr : FleaTrade) : TxWeeks :=
  let received := tradeTeamReceived wst startWeek tr
  received.enum.foldl
    (fun acc q =>
      txAppendTrade acc q.2.2.2
        (.row ⟨q.2.1, q.2.2.1, sentIdsFor received q.1, tradeTs tr, tr.id⟩))
    t

/- ===================================================================
   Per-team transaction feed
   (fleaflicker.py, map_data_to_base, lines 481-596, online path)
   =================================================================== -/

/-- One item of the per-team FetchLeagueTransactions feed (lines 528-541). -/
structure TeamTxItem where
  timeEpochMilli : ℤ
  txType : Option String
  proPlayerId : Option ℕ
  requestedGames : List RequestedGame
deriving DecidableEq

/-- The candidate week ordinal of a per-team transaction item
(lines 535-541). -/
def teamTxWeekOrd (it : TeamTxItem) : Option ℕ :=
  match it.requestedGames with
  | rg :: _ => rg.ordinal
  | [] => none

/-- The week a per-team transaction item is resolved to (lines 542-565,
the same ordinal-vs-epoch reconciliation as the activity pass). -/
def teamTxResolvedWeek (wst : List (ℕ × ℤ)) (it : TeamTxItem) : Option ℕ :=
  resolveWeek wst (teamTxWeekOrd it) it.timeEpochMilli

/-- Lines 528-586 for one per-team transaction item: resolve the week, skip
falsy weeks (`if not wk_ord: continue`) and weeks outside
`[start_week, num_regular_season_weeks]`, then append under the kind derived
from the type substring when a player id is present.  In-range weeks are
exactly the keys created by `initTxWeeks`, so the direct
`transactions_by_week[wk_key][kind].append` cannot miss. -/
def processTeamTxItem (wst : List (ℕ × ℤ)) (startWeek numRegWeeks : ℕ)
    (teamId : String) (t : TxWeeks) (it : TeamTxItem) : TxWeeks :=
  let ttype := pyStrOr it.txType "TRANSACTION_ADD"
  let wkOrd := teamTxResolvedWeek wst it
  if pyFalsyWeek wkOrd then t
  else
    let wk := wkOrd.getD 0
    if wk < startWeek ∨ numRegWeeks < wk then t
    else
      let kind : Option TxKind :=
        if strHasSub "DROP" ttype then some .drops
        else if strHasSub "CLAIM" ttype then some .claims
        else if strHasSub "ADD" ttype then some .adds
        else none
      match kind, it.proPlayerId with
      | some k, some pid => txAppendMove t wk k ⟨teamId, toString pid⟩
      | _, _ => t

/-- The whole transaction-normalization pass of map_data_to_base, online
path: initialize the weekly buckets (lines 265-267), fold the league
activity feed (lines 270-379), the completed trades feed (lines 381-479)
and the per-team transaction feeds (lines 481-596) over them, in source
order. -/
def runTransactionNormalization (startWeek numRegWeeks : ℕ)
    (wst : List (ℕ × ℤ)) (seasonLo seasonHi : ℤ)
    (activities : List Activity) (fleaTrades : List FleaTrade)
    (teamTx : List (String × List TeamTxItem)) : TxWeeks :=
  let t0 := initTxWeeks startWeek numRegWeeks
  let t1 := activities.foldl (processActivity wst seasonLo seasonHi) t0
  let t2 := fleaTrades.foldl (fun t tr => processTrade t wst startWeek tr) t1
  teamTx.foldl
    (fun t p => p.2.foldl (processTeamTxItem wst startWeek numRegWeeks p.1) t)
    t2

/- ===================================================================
   Weekly transactions & lineup awards
   (report/data.py, ReportData.__init__, lines 365-594)
   =================================================================== -/

/-- One rostered player, reduced to the fields the awards pass reads. -/
structure RosterPlayer where
  playerId : String
  selectedPosition : Option String
  points : ℚ
deriving DecidableEq

/-- One team of the report week, reduced to the fields the awards pass
reads (`teams_by_week[str(week_counter)]`). -/
structure AwardsTeam where
  teamId : String
  name : String
  manager : String
  roster : List RosterPlayer
deriving DecidableEq

/-- A single free-agent-pickup / drop award row: team name, manager, the
player (identified by id; display-name resolution is presentation only) and
the points value. -/
structure FAAwardRow where
  teamName : String
  manager : String
  playerId : String
  points : ℚ
deriving DecidableEq

/-- A single trade award row: team name, manager, the two player-id lists
(the rendered detail string is presentation only) and the net points swing
received minus sent. -/
structure TradeAwardRow where
  teamName : String
  manager : String
  recIds : List String
  sentIds : List String
  net : ℚ
deriving DecidableEq

/-- The award fields of ReportData written by lines 365-594, with their
initial values from lines 116-123. -/
structure AwardsState where
  bestFA : List FAAwardRow
  worstFA : List FAAwardRow
  bestFAhm : Option (String × String × ℚ)
  worstFAhm : Option (String × String × ℚ)
  bestDrops : List FAAwardRow
  worstDrops : List FAAwardRow
  bestTrades : List TradeAwardRow
  worstTrades : List TradeAwardRow
deriving DecidableEq

def initAwards : AwardsState := ⟨[], [], none, none, [], [], [], []⟩

/-- Python `sorted(..., key=..., reverse=True)`: stable descending sort. -/
def sortDescQ {α : Type} (key : α → ℚ) (l : List α) : List α :=
  pySorted (fun a b => decide (key b ≤ key a)) l

/-- Python `sorted(..., key=...)`: stable ascending sort. -/
def sortAscQ {α : Type} (key : α → ℚ) (l : List α) : List α :=
  pySorted (fun a b => decide (key a ≤ key b)) l

/-- The `team_lookup` dict (line 414), as a first-match search over the
week's teams. -/
def teamLookup (teams : List AwardsTeam) (tid : String) : Option AwardsTeam :=
  teams.find? (fun t => t.teamId == tid)

/-- The `team_id` of a trades-bucket entry as the awards pass reads it
(`str(tr.get("team_id"))`, line 563): a raw activity item carries none, so
`str(None)` yields `"None"`. -/
def tradeEntryTeamId : TradeEntry → String
  | .row r => r.teamId
  | .activityItem _ => "None"

/-- The `players_received` list of a trades-bucket entry (line 564): empty
for a raw activity item. -/
def tradeEntryRecIds : TradeEntry → List String
  | .row r => r.playersReceived
  | .activityItem _ => []

/-- The `players_sent` list of a trades-bucket entry (line 565): empty for
a raw activity item. -/
def tradeEntrySentIds : TradeEntry → List String
  | .row r => r.playersSent
  | .activityItem _ => []

/-- The `trade_received_by_team` membership test (lines 384-394): whether
`pid` was received via a trade by team `tid` this week. -/
def tradeReceivedByTeam (trades : List TradeEntry) (tid pid : String) : Bool :=
  trades.any (fun te =>
    tradeEntryTeamId te == tid && (tradeEntryRecIds te).contains pid)

/-- Lines 390-398: the free-agent pickup candidates `(team_id, player_id,
points)` from the week's adds and claims, excluding players acquired via a
trade this week; points default to `0` for players absent from the week's
player map. -/
def faCandidates (trades : List TradeEntry) (currPlayers : List (String × ℚ))
    (adds claims : List MoveEvent) : List (String × String × ℚ) :=
  (adds ++ claims).filterMap (fun ev =>
    if tradeReceivedByTeam trades ev.teamId ev.playerId then none
    else some (ev.teamId, ev.playerId, (currPlayers.lookup ev.playerId).getD 0))

/-- Lines 401-411: one drop candidate; the dropped player's points come from
the week's player map, else the week's free-agent map, else `0`. -/
def dropCandidate (currPlayers currFAs : List (String × ℚ)) (ev : MoveEvent) :
    String × String × ℚ :=
  (ev.teamId, ev.playerId,
    match currPlayers.lookup ev.playerId with
    | some pts => pts
    | none =>
      match currFAs.lookup ev.playerId with
      | some pts => pts
      | none => 0)

/-- Lines 443-449: whether a pickup counts as "started": the player is on
that team's current-week roster with a truthy selected position that is not
a bench slot. -/
def isStartedPickup (teams : List AwardsTeam) (benchPositions : List String)
    (tid pid : String) : Bool :=
  match teamLookup teams tid with
  | some t =>
    match t.roster.find? (fun p => p.playerId == pid) with
    | some p =>
      match p.selectedPosition with
      | some sp => sp != "" && !(benchPositions.contains sp)
      | none => false
    | none => false
  | none => false

/-- Lines 561-588: the eligible weekly trade award rows, one per
trades-bucket entry that has both received and sent players and whose team
is among the week's teams; the net is the points sum of found received
players minus that of found sent players. -/
def awardsTradeRows (teams : List AwardsTeam)
    (currPlayers : List (String × ℚ)) (trades : List TradeEntry) :
    List TradeAwardRow :=
  trades.filterMap (fun te =>
    let recIds := tradeEntryRecIds te
    let sentIds := tradeEntrySentIds te
    if recIds = [] ∨ sentIds = [] then none
    else
      let recPts := (recIds.filterMap (fun pid => currPlayers.lookup pid)).sum
      let sentPts := (sentIds.filterMap (fun pid => currPlayers.lookup pid)).sum
      match teamLookup teams (tradeEntryTeamId te) with
      | some t => some ⟨t.name, t.manager, recIds, sentIds, recPts - sentPts⟩
      | none => none)

/-- Lines 413-594, the body that the source executes once per drop event:
update the award fields from the full pickup candidates, the drop candidates
accumulated so far, and the week's trade entries.  Fields whose guarding
conditions fail keep the value from the previous iteration (`prev`). -/
def awardsBody (prev : AwardsState) (teams : List AwardsTeam)
    (benchPositions : List String) (currPlayers : List (String × ℚ))
    (faCands dropCands : List (String × String × ℚ))
    (trades : List TradeEntry) : AwardsState :=
  let started := faCands.filter
    (fun c => isStartedPickup teams benchPositions c.1 c.2.1)
  let benched := faCands.filter
    (fun c => !(isStartedPickup teams benchPositions c.1 c.2.1))
  -- Best FA pickup (lines 474-495)
  let st := prev
  let st :=
    match sortDescQ (fun c => c.2.2) started with
    | best :: _ =>
      let st1 :=
        match teamLookup teams best.1 with
        | some t => { st with bestFA := [⟨t.name, t.manager, best.2.1, best.2.2⟩] }
        | none => st
      let st1 := { st1 with bestFAhm := none }
      match sortDescQ (fun c => c.2.2) benched with
      | hm :: _ =>
        match teamLookup teams hm.1 with
        | some t =>
          if best.2.2 < hm.2.2 then
            { st1 with bestFAhm := some (t.name, hm.2.1, hm.2.2) }
          else st1
        | none => st1
      | [] => st1
    | [] =>
      match sortDescQ (fun c => c.2.2) benched with
      | best :: _ =>
        match teamLookup teams best.1 with
        | some t => { st with bestFA := [⟨t.name, t.manager, best.2.1, best.2.2⟩] }
        | none => st
      | [] => st
  -- Worst FA pickup (lines 497-517)
  let st :=
    match sortAscQ (fun c => c.2.2) started with
    | worst :: _ =>
      let st1 :=
        match teamLookup teams worst.1 with
        | some t => { st with worstFA := [⟨t.name, t.manager, worst.2.1, worst.2.2⟩] }
        | none => st
      let st1 := { st1 with worstFAhm := none }
      match sortAscQ (fun c => c.2.2) benched with
      | hm :: _ =>
        match teamLookup teams hm.1 with
        | some t =>
          if hm.2.2 < worst.2.2 then
            { st1 with worstFAhm := some (t.name, hm.2.1, hm.2.2) }
          else st1
        | none => st1
      | [] => st1
    | [] =>
      match sortAscQ (fun c => c.2.2) benched with
      | worst :: _ =>
        match teamLookup teams worst.1 with
        | some t => { st with worstFA := [⟨t.name, t.manager, worst.2.1, worst.2.2⟩] }
        | none => st
      | [] => st
  -- Drop awards (lines 519-534)
  let st :=
    if dropCands.isEmpty then st
    else
      let st :=
        match sortAscQ (fun c => c.2.2) dropCands with
        | c :: _ =>
          match teamLookup teams c.1 with
          | some t => { st with bestDrops := [⟨t.name, t.manager, c.2.1, c.2.2⟩] }
          | none => st
        | [] => st
      match sortDescQ (fun c => c.2.2) dropCands with
      | c :: _ =>
        match teamLookup teams c.1 with
        | some t => { st with worstDrops := [⟨t.name, t.manager, c.2.1, c.2.2⟩] }
        | none => st
      | [] => st
  -- Trade awards (lines 560-594); the `acquired_by_team` / `sent_by_team`
  -- roster-diff aggregation (lines 536-558) is dead downstream and omitted.
  let tradeRows := awardsTradeRows teams currPlayers trades
  if tradeRows.isEmpty then st
  else
    { st with
      bestTrades := (sortDescQ (fun r => r.net) tradeRows).take 1,
      worstTrades := (sortAscQ (fun r => r.net) tradeRows).take 1 }

/-- One iteration of `for ev in events.get("drops", []):` (lines 400-594):
accumulate the next drop candidate, then run the awards body on the
candidates accumulated so far. -/
def awardsDropStep (teams : List AwardsTeam) (benchPositions : List String)
    (currPlayers currFAs : List (String × ℚ))
    (faCands : List (String × String × ℚ)) (trades : List TradeEntry)
    (st : AwardsState × List (String × String × ℚ)) (ev : MoveEvent) :
    AwardsState × List (String × String × ℚ) :=
  let dropCands := st.2 ++ [dropCandidate currPlayers currFAs ev]
  (awardsBody st.1 teams benchPositions currPlayers faCands dropCands trades,
   dropCands)

/-- Lines 365-594 as a whole.  The entire awards body (lines 413-594) is
nested inside `for ev in events.get("drops", []):`, so it executes once per
drop event, with the drop candidates accumulated so far; with no drop
events it never executes and every award field keeps its initial value. -/
def computeAwards (teams : List AwardsTeam) (benchPositions : List String)
    (currPlayers currFAs : List (String × ℚ))
    (adds claims drops : List MoveEvent) (trades : List TradeEntry) :
    AwardsState :=
  let faCands := faCandidates trades currPlayers adds claims
  (drops.foldl
    (awardsDropStep teams benchPositions currPlayers currFAs faCands trades)
    (initAwards, [])).1

/- ===================================================================
   Z-score table
   (report/data.py, ReportData.__init__, lines 218-241)
   =================================================================== -/

/-- Line 226, `0 if not z_score_val else z_score_val`: `None` (and the
already-zero value `0`) coerce to `0`. -/
def pyCoerceZ (v : Option ℚ) : ℚ := v.getD 0

/-- Lines 233-237: the displayed z-score, `N/A` (here `none`) for a falsy
value and the rounded value otherwise. -/
def zDisplay (v : ℚ) : Option ℚ := if v = 0 then none else some (round2 v)

/-- Lines 231-241: number the sorted rows starting from rank 1. -/
def numberZRows : ℕ → List (String × ℚ) → List (ℕ × String × Option ℚ)
  | _, [] => []
  | n, p :: ps => (n, p.1, zDisplay p.2) :: numberZRows (n + 1) ps

/-- Lines 218-241: the z-score table.  When every value is undefined no
table is created; otherwise undefined values are coerced to `0` (when no
value is undefined this coercion is the identity, matching the source's
third branch which leaves the dict untouched), the rows are sorted by value
descending, and one numbered row is emitted per team. -/
def zScoreTable (rs : List (String × Option ℚ)) : List (ℕ × String × Option ℚ) :=
  if rs.all (fun p => p.2 = none) then []
  else
    numberZRows 1
      (sortDescQ Prod.snd (rs.map (fun p => (p.1, pyCoerceZ p.2))))

/- ===================================================================
   Example inputs used by concrete counterexamples and evaluations
   =================================================================== -/

/-- A week-start table with a single known week (week 1 starting at
epoch-millisecond 1000). -/
def exWst : List (ℕ × ℤ) := [(1, 1000)]

/-- A completed trade with no timestamp fields: team 11 receives player 10
whose requested game start (1000) maps into week 1; team 22 receives player
20 with no requested-game start, so its week is unresolvable. -/
def exTrade : FleaTrade :=
  { id := some 99
    teams := [⟨some 11, [⟨some 10, some 1000⟩]⟩, ⟨some 22, [⟨some 20, none⟩]⟩]
    approvedOn := none
    proposedOn := none
    tentativeExecutionTime := none
    executionTimeEpochMilli := none }

/-- The bench position slots used by the award examples. -/
def exBench : List String := ["BN", "IR"]

/-- Report-week team A with one started roster player. -/
def exTeamA : AwardsTeam := ⟨"A", "Team A", "Mgr A", [⟨"9", some "RB", 7⟩]⟩

/-- Report-week team T whose roster has pickup P started at WR for 12.5. -/
def exTeamT : AwardsTeam := ⟨"T", "Team T", "Mgr T", [⟨"P", some "WR", 25/2⟩]⟩

/-- Week player points for the trade-award example: received player 1 scored
15.0, sent player 2 scored 20.0, so the only trade nets −5.0. -/
def exPlayers7 : List (String × ℚ) := [("1", 15), ("2", 20)]

/-- The only trade row of the trade-award example. -/
def exTradeRow7 : TradeRow := ⟨"A", ["1"], ["2"], none, none⟩

/-- Scoreboard games for the median witness: week 2 has scores 100, 105 and
110 parsed from the home and away sides, all other weeks have no games. -/
def exGames : ℕ → List FleaGame := fun wk =>
  if wk = 2 then
    [⟨some ⟨some 100, none, none⟩, some ⟨some 105, none, none⟩⟩,
     ⟨some ⟨some 110, none, none⟩, none⟩]
  else []

/-- An activity transaction carrying platform week ordinal 5 for player 7
by team 3. -/
def exTxOrd5 : ActivityTx :=
  ⟨some "TRANSACTION_ADD", some 3, some ⟨some 7, [⟨some 5, none⟩]⟩, none⟩

/-- An activity transaction with no platform week ordinal. -/
def exTxNoOrd : ActivityTx :=
  ⟨some "TRANSACTION_ADD", some 3, some ⟨some 7, []⟩, none⟩

/-- A per-team transaction item carrying platform week ordinal 5 at
timestamp 150. -/
def exTeamTxOrd5 : TeamTxItem := ⟨150, some "TRANSACTION_DROP", some 7, [⟨some 5, none⟩]⟩

/-- An activity at timestamp 500 whose transaction has no player block and
no players list, so no week ordinal can be derived. -/
def exActNoWeek : Activity := ⟨500, some ⟨some "TRANSACTION_ADD", some 3, none, none⟩⟩

/- ===================================================================
   Shared helper lemmas
   =================================================================== -/

theorem ratFloor_intCast (n : ℤ) : ratFloor ((n : ℚ)) = n := by
  simp [ratFloor, Rat.num_intCast, Rat.den_intCast, Int.fdiv_one]

theorem roundHalfEven_intCast (n : ℤ) : roundHalfEven ((n : ℚ)) = n := by
  simp only [roundHalfEven, ratFloor_intCast]
  norm_num

theorem round2_intCast (n : ℤ) : round2 ((n : ℚ)) = n := by
  rw [round2]
  have h : ((n : ℚ)) * 100 = (((n * 100 : ℤ)) : ℚ) := by push_cast; ring
  rw [h, roundHalfEven_intCast]
  push_cast
  field_simp

theorem lookup_map_key {β : Type} (f : ℕ → β) :
    ∀ (l : List ℕ) (k : ℕ), k ∈ l →
      (l.map (fun x => (x, f x))).lookup k = some (f k)
  | [], k, h => absurd h (List.not_mem_nil k)
  | x :: xs, k, h => by
    simp only [List.map_cons, List.lookup]
    by_cases hk : k = x
    · subst hk; simp
    · have hmem : k ∈ xs := by
        rcases List.mem_cons.mp h with h1 | h1
        · exact absurd h1 hk
        · exact h1
      have : (k == x) = false := beq_false_of_ne hk
      rw [this]
      exact lookup_map_key f xs k hmem

/- ===================================================================
   C1: weekly medians
   =================================================================== -/

/-- C1 counterexample: the claim says a week in range with zero parsed
scores has no entry in `median_score_by_week`; but the source stores the
key with value `None` (line 229), so with `start_week = week_for_report =
num_regular_season_weeks = 1` and no games the mapping contains the key
`1` mapped to nothing, rather than not containing it. -/
theorem median_empty_week_key_present :
    (computeMedians 1 1 1 (fun _ => [])).lookup 1 = some none ∧
      (computeMedians 1 1 1 (fun _ => [])).lookup 1 ≠ none := by
  constructor
  · rfl
  · intro h
    simp [computeMedians, weekMedianValue, weekScores] at h

/-- C1 (amended): for every week `wk` in
`[start_week, min(week_for_report, num_regular_season_weeks)]`, when at
least one score parses for `wk` the stored entry is the statistical median
of exactly the parsed scores (home and away side of every game) rounded to
two decimals, and when no score parses the key is present but maps to no
median (`None`), never `0`. -/
theorem median_score_by_week_spec (startWeek weekForReport numRegWeeks wk : ℕ)
    (gamesByWeek : ℕ → List FleaGame)
    (hlo : startWeek ≤ wk) (hhi : wk ≤ min weekForReport numRegWeeks) :
    (weekScores (gamesByWeek wk) ≠ [] →
       (computeMedians startWeek weekForReport numRegWeeks gamesByWeek).lookup wk
         = some (some (round2 (pyMedian (weekScores (gamesByWeek wk)))))) ∧
    (weekScores (gamesByWeek wk) = [] →
       (computeMedians startWeek weekForReport numRegWeeks gamesByWeek).lookup wk
         = some none) := by
  have hmem : wk ∈ List.range' startWeek (min weekForReport numRegWeeks + 1 - startWeek) := by
    rw [List.mem_range']
    exact ⟨wk - startWeek, by omega, by omega⟩
  have hbase :
      (computeMedians startWeek weekForReport numRegWeeks gamesByWeek).lookup wk
        = some (weekMedianValue gamesByWeek wk) :=
    lookup_map_key (weekMedianValue gamesByWeek) _ wk hmem
  constructor
  · intro hne
    rw [hbase, weekMedianValue]
    simp [List.isEmpty_iff, hne]
  · intro he
    rw [hbase, weekMedianValue]
    simp [List.isEmpty_iff, he]

/-- C1 witness: a three-team week (scores 100, 105 and 110 parsed from the
home and away sides) in range stores a median of 105, and an in-range week
with no games stores the key with no median. -/
theorem median_score_by_week_spec_witness :
    (computeMedians 1 3 3 exGames).lookup 2 = some (some 105) ∧
    (computeMedians 1 3 3 exGames).lookup 1 = some none := by
  constructor
  · have h := (median_score_by_week_spec 1 3 3 2 exGames (by decide)
      (by decide)).1 (by decide)
    rw [h]
    have e1 : weekScores (exGames 2) = [100, 105, 110] := rfl
    rw [e1]
    have e2 : pyMedian [100, 105, 110] = 105 := rfl
    rw [e2]
    have e3 : (105 : ℚ) = (((105 : ℤ)) : ℚ) := by norm_num
    rw [e3, round2_intCast]
  · exact (median_score_by_week_spec 1 3 3 1 exGames (by decide)
      (by decide)).2 (by decide)

/- ===================================================================
   C2: cumulative median record fold
   =================================================================== -/

/-- C2: for a week with median `m` and team score `s`, the cumulative median
record gains `(s - m)` on points-for, has its points-against replaced by the
literal value `m`, and gains exactly one of a win (`s > m`), a loss
(`s < m`) or a tie (`s = m`); for a week with no median the record is left
unchanged.  In particular, with scores 100, 105 and 110 the weekly median is
105 and the three teams receive a loss, a tie and a win respectively. -/
theorem median_record_step_spec (r : BaseRecord) (s m : ℚ) :
    (medianRecordStep r s (some m)).pointsFor = r.pointsFor + (s - m) ∧
    (medianRecordStep r s (some m)).pointsAgainst = m ∧
    (m < s →
      (medianRecordStep r s (some m)).wins = r.wins + 1 ∧
      (medianRecordStep r s (some m)).losses = r.losses ∧
      (medianRecordStep r s (some m)).ties = r.ties) ∧
    (s < m →
      (medianRecordStep r s (some m)).wins = r.wins ∧
      (medianRecordStep r s (some m)).losses = r.losses + 1 ∧
      (medianRecordStep r s (some m)).ties = r.ties) ∧
    (s = m →
      (medianRecordStep r s (some m)).wins = r.wins ∧
      (medianRecordStep r s (some m)).losses = r.losses ∧
      (medianRecordStep r s (some m)).ties = r.ties + 1) ∧
    medianRecordStep r s none = r ∧
    round2 (pyMedian [100, 105, 110]) = 105 ∧
    medianRecordStep ⟨0, 0, 0, 0, 0⟩ 100 (some 105) = ⟨0, 1, 0, -5, 105⟩ ∧
    medianRecordStep ⟨0, 0, 0, 0, 0⟩ 105 (some 105) = ⟨0, 0, 1, 0, 105⟩ ∧
    medianRecordStep ⟨0, 0, 0, 0, 0⟩ 110 (some 105) = ⟨1, 0, 0, 5, 105⟩ := by
  have hmed : round2 (pyMedian [100, 105, 110]) = 105 := by
    have e2 : pyMedian [100, 105, 110] = 105 := rfl
    rw [e2, show (105 : ℚ) = (((105 : ℤ)) : ℚ) by norm_num, round2_intCast]
  refine ⟨?_, ?_, ?_, ?_, ?_, rfl, hmed, ?_, ?_, ?_⟩
  · simp only [medianRecordStep, addPointsFor, addPointsAgainst, addWin,
      addLoss, addTie]
    split_ifs <;> simp
  · simp only [medianRecordStep, addPointsFor, addPointsAgainst, addWin,
      addLoss, addTie]
    split_ifs <;> simp
  · intro h
    simp only [medianRecordStep, addPointsFor, addPointsAgainst, addWin,
      addLoss, addTie]
    rw [if_pos h]
    simp
  · intro h
    simp only [medianRecordStep, addPointsFor, addPointsAgainst, addWin,
      addLoss, addTie]
    rw [if_neg (by exact not_lt_of_gt h), if_pos h]
    simp
  · intro h
    simp only [medianRecordStep, addPointsFor, addPointsAgainst, addWin,
      addLoss, addTie]
    rw [if_neg (by simp [h]), if_neg (by simp [h])]
    simp
  · simp only [medianRecordStep, addPointsFor, addPointsAgainst, addWin,
      addLoss, addTie]
    rw [if_neg (by norm_num), if_pos (by norm_num)]
    simp only [BaseRecord.mk.injEq]
    norm_num
  · simp only [medianRecordStep, addPointsFor, addPointsAgainst, addWin,
      addLoss, addTie]
    rw [if_neg (by norm_num), if_neg (by norm_num)]
    simp only [BaseRecord.mk.injEq]
    norm_num
  · simp only [medianRecordStep, addPointsFor, addPointsAgainst, addWin,
      addLoss, addTie]
    rw [if_pos (by norm_num)]
    simp only [BaseRecord.mk.injEq]
    norm_num

/-- C2 witness: instantiating the step at a fresh record with score 110 and
median 105 yields exactly one win and points-against 105. -/
theorem median_record_step_spec_witness :
    (105 : ℚ) < 110 ∧
    (medianRecordStep ⟨0, 0, 0, 0, 0⟩ 110 (some 105)).wins = 0 + 1 ∧
    (medianRecordStep ⟨0, 0, 0, 0, 0⟩ 110 (some 105)).losses = 0 ∧
    (medianRecordStep ⟨0, 0, 0, 0, 0⟩ 110 (some 105)).ties = 0 ∧
    (medianRecordStep ⟨0, 0, 0, 0, 0⟩ 110 (some 105)).pointsAgainst = 105 := by
  have h := median_record_step_spec ⟨0, 0, 0, 0, 0⟩ 110 105
  have hw := h.2.2.1 (by norm_num)
  exact ⟨by norm_num, hw.1, hw.2.1, hw.2.2, h.2.1⟩

/- ===================================================================
   C3: week-window round trip
   =================================================================== -/

theorem mapEpochGo_skip (w0 wh : ℕ) (s0 sh : ℤ) (rest : List (ℕ × ℤ))
    (ts : ℤ) (h : sh ≤ ts) :
    mapEpochGo ((w0, s0) :: (wh, sh) :: rest) ts
      = mapEpochGo ((wh, sh) :: rest) ts := by
  have : ¬ (s0 ≤ ts ∧ ts ≤ weekWindowEnd s0 ((wh, sh) :: rest)) := by
    intro hc
    simp only [weekWindowEnd] at hc
    omega
  simp only [mapEpochGo, if_neg this]

/-- C3 counterexample: the claim's round trip fails when the known week
start timestamps are not monotone in week order.  With windows
`{1 ↦ 50, 2 ↦ 300, 3 ↦ 100}` (already sorted by week number) the adjacent
pair is week 1 starting at 50 and week 2 starting at 300 with `50 < 300`,
yet the scan maps timestamp 300 to week 3 — week 3's window `[100, 100+8d]`
swallows it — not to week 2 as the claim requires (the low-end boundary
`map_epoch(299) = week 1` does hold here). -/
theorem map_epoch_round_trip_counterexample :
    mapEpochGo [(1, 50), (2, 300), (3, 100)] 300 = some 3 ∧
    mapEpochGo [(1, 50), (2, 300), (3, 100)] 300 ≠ some 2 ∧
    mapEpochGo [(1, 50), (2, 300), (3, 100)] 299 = some 1 := by
  refine ⟨by decide, by decide, by decide⟩

/-- C3 (amended): over week windows whose start timestamps are strictly
increasing in week order (as real schedules are), each window ends one
millisecond before the next known week's start — the last one at its start
plus 8 days — the scan returns the first containing window, and for
adjacent known weeks `(w1, s1)` and `(w2, s2)` the round trip holds:
`map_epoch(s2 - 1) = w1` and `map_epoch(s2) = w2`. -/
theorem map_epoch_round_trip (pre post : List (ℕ × ℤ)) (w1 w2 : ℕ)
    (s1 s2 : ℤ)
    (h : (pre ++ (w1, s1) :: (w2, s2) :: post).Pairwise
      (fun a b => a.1 < b.1 ∧ a.2 < b.2)) :
    mapEpochGo (pre ++ (w1, s1) :: (w2, s2) :: post) (s2 - 1) = some w1 ∧
    mapEpochGo (pre ++ (w1, s1) :: (w2, s2) :: post) s2 = some w2 := by
  induction pre with
  | nil =>
    have h12 : s1 < s2 := by
      have := (List.pairwise_cons.mp h).1 (w2, s2) (by simp)
      exact this.2
    constructor
    · have hc : s1 ≤ s2 - 1 ∧ s2 - 1 ≤ weekWindowEnd s1 ((w2, s2) :: post) := by
        simp only [weekWindowEnd]
        omega
      simp only [List.nil_append, mapEpochGo, if_pos hc]
    · have hc1 : ¬ (s1 ≤ s2 ∧ s2 ≤ weekWindowEnd s1 ((w2, s2) :: post)) := by
        simp only [weekWindowEnd]
        omega
      have hc2 : s2 ≤ s2 ∧ s2 ≤ weekWindowEnd s2 post := by
        refine ⟨le_refl s2, ?_⟩
        match post with
        | [] => simp only [weekWindowEnd]; omega
        | (w3, s3) :: rest =>
          have h23 : s2 < s3 := by
            have hp := (List.pairwise_cons.mp (List.Pairwise.of_cons h)).1
              (w3, s3) (by simp)
            exact hp.2
          simp only [weekWindowEnd]
          omega
      simp only [List.nil_append, mapEpochGo, if_neg hc1, if_pos hc2]
  | cons p pre ih =>
    have htail : ((pre ++ (w1, s1) :: (w2, s2) :: post)).Pairwise
        (fun a b => a.1 < b.1 ∧ a.2 < b.2) := List.Pairwise.of_cons h
    have hih := ih htail
    -- the head of the remaining list starts no later than s2 - 1
    have hhead : ∀ wh sh rest,
        pre ++ (w1, s1) :: (w2, s2) :: post = (wh, sh) :: rest → sh ≤ s2 - 1 := by
      intro wh sh rest heq
      have htail2 : ((wh, sh) :: rest).Pairwise
          (fun a b => a.1 < b.1 ∧ a.2 < b.2) := heq ▸ htail
      have hmem : (w2, s2) ∈ rest := by
        cases pre with
        | nil =>
          simp only [List.nil_append] at heq
          obtain ⟨h1, h2⟩ := List.cons_eq_cons.mp heq
          rw [← h2]
          simp
        | cons q pre2 =>
          rw [List.cons_append] at heq
          obtain ⟨h1, h2⟩ := List.cons_eq_cons.mp heq
          rw [← h2]
          simp
      have hlt := (List.pairwise_cons.mp htail2).1 (w2, s2) hmem
      omega
    match hrep : pre ++ (w1, s1) :: (w2, s2) :: post with
    | [] => simp at hrep
    | (wh, sh) :: rest =>
      have hsh := hhead wh sh rest hrep
      rw [List.cons_append, hrep]
      constructor
      · rw [mapEpochGo_skip p.1 wh p.2 sh rest (s2 - 1) (by omega)]
        rw [hrep] at hih
        exact hih.1
      · rw [mapEpochGo_skip p.1 wh p.2 sh rest s2 (by omega)]
        rw [hrep] at hih
        exact hih.2

/-- C3 witness: with weeks 1 and 2 starting at 100 and 200, timestamp 199
maps to week 1 and timestamp 200 maps to week 2. -/
theorem map_epoch_round_trip_witness :
    mapEpochGo [(1, 100), (2, 200)] 199 = some 1 ∧
    mapEpochGo [(1, 100), (2, 200)] 200 = some 2 := by
  have h := map_epoch_round_trip [] [] 1 2 100 200 (by decide)
  simpa using h

/- ===================================================================
   C4: epoch-derived week wins over the platform ordinal
   =================================================================== -/

/-- C4: for activity items and per-team transaction items alike, when the
item's epoch timestamp maps to a week through the window lookup, that
epoch-derived week is the resolved attribution week — it overrides a
disagreeing platform ordinal, and it fills in for a missing one. -/
theorem epoch_week_overrides_ordinal (wst : List (ℕ × ℤ)) (tx : ActivityTx)
    (it : TeamTxItem) (ts : ℤ) (o ot m mt : ℕ)
    (hmapA : mapEpoch wst ts = some m)
    (hmapT : mapEpoch wst it.timeEpochMilli = some mt) :
    (activityWeekOrd tx = some o → o ≠ m →
       activityResolvedWeek wst tx ts = some m) ∧
    (activityWeekOrd tx = none → activityResolvedWeek wst tx ts = some m) ∧
    (teamTxWeekOrd it = some ot → ot ≠ mt →
       teamTxResolvedWeek wst it = some mt) ∧
    (teamTxWeekOrd it = none → teamTxResolvedWeek wst it = some mt) := by
  have hwne : wst ≠ [] := by
    intro h
    subst h
    simp [mapEpoch, sortWst, pySorted, mapEpochGo] at hmapA
  refine ⟨?_, ?_, ?_, ?_⟩
  · intro ho _
    simp [activityResolvedWeek, resolveWeek, hwne, ho, hmapA]
  · intro ho
    simp [activityResolvedWeek, resolveWeek, hwne, ho, hmapA]
  · intro ho _
    simp [teamTxResolvedWeek, resolveWeek, hwne, ho, hmapT]
  · intro ho
    simp [teamTxResolvedWeek, resolveWeek, hwne, ho, hmapT]

/-- C4 witness: with weeks 1 and 2 starting at 100 and 200, an activity at
timestamp 150 carrying platform ordinal 5 resolves to the epoch-derived
week 1, an ordinal-less activity at 150 resolves to week 1, and a per-team
item at 150 with ordinal 5 resolves to week 1. -/
theorem epoch_week_overrides_ordinal_witness :
    activityResolvedWeek [(1, 100), (2, 200)] exTxOrd5 150 = some 1 ∧
    activityResolvedWeek [(1, 100), (2, 200)] exTxNoOrd 150 = some 1 ∧
    teamTxResolvedWeek [(1, 100), (2, 200)] exTeamTxOrd5 = some 1 := by
  have h := epoch_week_overrides_ordinal [(1, 100), (2, 200)] exTxOrd5
    exTeamTxOrd5 150 5 5 1 1 (by decide) (by decide)
  have h2 := epoch_week_overrides_ordinal [(1, 100), (2, 200)] exTxNoOrd
    exTeamTxOrd5 150 5 5 1 1 (by decide) (by decide)
  exact ⟨h.1 (by decide) (by decide), h2.2.1 (by decide),
    (h.2.2.1) (by decide) (by decide)⟩

/- ===================================================================
   C5: offseason trade fallback and dropped unresolvable activities
   =================================================================== -/

theorem tradePlayerStep_keeps_guess (wst : List (ℕ × ℤ)) (startWeek : ℕ)
    (tTs : ℤ) (hts : tTs ≠ 0) (hmap : mapEpoch wst tTs = none)
    (p : ObtainedPlayer) (hp : reqMapped wst p = none)
    (st : List String × Option ℕ) (h : st.2 = some startWeek) :
    (tradePlayerStep wst startWeek (some tTs) st p).2 = some startWeek := by
  simp only [tradePlayerStep]
  split
  · simp [if_neg hts, hmap, hp, h]
  · exact h

theorem tradeTeamGuess_fold_keeps (wst : List (ℕ × ℤ)) (startWeek : ℕ)
    (tTs : ℤ) (hts : tTs ≠ 0) (hmap : mapEpoch wst tTs = none) :
    ∀ (rest : List ObtainedPlayer) (st : List String × Option ℕ),
      st.2 = some startWeek → (∀ p ∈ rest, reqMapped wst p = none) →
      (rest.foldl (tradePlayerStep wst startWeek (some tTs)) st).2
        = some startWeek
  | [], st, h, _ => h
  | p :: rest, st, h, hreq => by
    rw [List.foldl_cons]
    exact tradeTeamGuess_fold_keeps wst startWeek tTs hts hmap rest _
      (tradePlayerStep_keeps_guess wst startWeek tTs hts hmap p
        (hreq p (by simp)) st h)
      (fun q hq => hreq q (by simp [hq]))

/-- C5: (trades) a trade whose week resolves neither from its timestamp nor
from any received player's requested-game start, but whose timestamp is
strictly earlier than the earliest known week-window start, is attributed to
`start_week`; (activities) an activity whose week resolution is falsy is
dropped — no weekly bucket changes. -/
theorem offseason_trade_and_dropped_activity (wst : List (ℕ × ℤ))
    (startWeek : ℕ) (tTs e : ℤ) (players : List ObtainedPlayer)
    (hw : wst ≠ []) (hts : tTs ≠ 0) (hmap : mapEpoch wst tTs = none)
    (hreq : ∀ p ∈ players, reqMapped wst p = none)
    (he : earliestStart wst = some e) (hlt : tTs < e) (hne : players ≠ []) :
    (tradeTeamGuess wst startWeek (some tTs) players).2 = some startWeek ∧
    (∀ (seasonLo seasonHi : ℤ) (t : TxWeeks) (a : Activity),
       (match a.transaction with
        | some tx => pyFalsyWeek (activityResolvedWeek wst tx a.timeEpochMilli) = true
        | none => True) →
       processActivity wst seasonLo seasonHi t a = t) := by
  constructor
  · obtain ⟨p0, rest, rfl⟩ := List.exists_cons_of_ne_nil hne
    rw [tradeTeamGuess, List.foldl_cons]
    refine tradeTeamGuess_fold_keeps wst startWeek tTs hts hmap rest _ ?_
      (fun q hq => hreq q (by simp [hq]))
    have hp0 : reqMapped wst p0 = none := hreq p0 (by simp)
    simp only [tradePlayerStep]
    rw [if_pos ⟨hw, Or.inl (by simp [pyTruthyZ, hts])⟩]
    simp [if_neg hts, hmap, hp0, he, hlt]
  · intro seasonLo seasonHi t a hfal
    obtain ⟨ts0, txo⟩ := a
    cases txo with
    | none =>
      simp only [processActivity]
      split <;> rfl
    | some tx =>
      simp only at hfal
      simp only [processActivity]
      split
      · simp [hfal]
      · rfl

/-- C5 witness: with week 1 starting at 1000, a trade timestamped 500 (which
maps to no window and predates the earliest start) whose only received
player has no requested-game start is attributed to start week 1; and an
activity at 500 with no derivable week ordinal leaves the weekly buckets
unchanged. -/
theorem offseason_trade_and_dropped_activity_witness :
    (tradeTeamGuess [(1, 1000)] 1 (some 500) [⟨some 7, none⟩]).2 = some 1 ∧
    processActivity [(1, 1000)] 0 10000 (initTxWeeks 1 1) exActNoWeek
      = initTxWeeks 1 1 := by
  have h := offseason_trade_and_dropped_activity [(1, 1000)] 1 500 1000
    [⟨some 7, none⟩] (by decide) (by decide) (by decide)
    (by intro p hp; simp at hp; subst hp; decide) (by decide) (by decide)
    (by decide)
  exact ⟨h.1, h.2 0 10000 (initTxWeeks 1 1) exActNoWeek (by rfl)⟩

/- ===================================================================
   C6: trades with an unresolvable team entry
   =================================================================== -/

/-- C6 counterexample: the claim says a trade any of whose teams' received
lists has no resolvable week is discarded entirely, with no team recorded.
In `exTrade` team 22's week guess is unresolvable (`none`) while team 11's
resolves to week 1 — and the source still appends team 11's row to week 1's
trades bucket, recording the trade partially. -/
theorem partial_trade_recorded_counterexample :
    (tradeTeamGuess exWst 1 (tradeTs exTrade) [⟨some 20, none⟩]).2 = none ∧
    processTrade (initTxWeeks 1 1) exWst 1 exTrade
      = [(1, ⟨[], [], [], [.row ⟨"11", ["10"], [], none, some 99⟩]⟩)] ∧
    processTrade (initTxWeeks 1 1) exWst 1 exTrade ≠ initTxWeeks 1 1 := by
  refine ⟨by decide, by decide, by decide⟩

theorem tradeTeamStep_skip (wst : List (ℕ × ℤ)) (startWeek : ℕ)
    (tTs : Option ℤ) (acc : List (String × List String × ℕ))
    (entry : TradeTeamSide)
    (h : pyFalsyWeek ((tradeTeamGuess wst startWeek tTs entry.playersObtained).2) = true) :
    tradeTeamStep wst startWeek tTs acc entry = acc := by
  simp only [tradeTeamStep]
  split
  · match hg : (tradeTeamGuess wst startWeek tTs entry.playersObtained).2 with
    | none => rfl
    | some 0 => rfl
    | some (w + 1) => rw [hg] at h; simp [pyFalsyWeek] at h
  · rfl

theorem tradeTeamReceived_fold_skip (wst : List (ℕ × ℤ)) (startWeek : ℕ)
    (tTs : Option ℤ) :
    ∀ (L : List TradeTeamSide) (acc : List (String × List String × ℕ)),
      (∀ e ∈ L,
        pyFalsyWeek ((tradeTeamGuess wst startWeek tTs e.playersObtained).2) = true) →
      L.foldl (tradeTeamStep wst startWeek tTs) acc = acc
  | [], _, _ => rfl
  | e :: L, acc, h => by
    rw [List.foldl_cons, tradeTeamStep_skip wst startWeek tTs acc e (h e (by simp))]
    exact tradeTeamReceived_fold_skip wst startWeek tTs L acc
      (fun q hq => h q (by simp [hq]))

/-- C6 (amended): a trade for which no participating team's received-player
week resolves is discarded entirely — no weekly bucket changes; but when
only some teams' weeks are unresolvable, just those team entries are
skipped and the remaining teams' rows are still recorded (the trade can be
partially recorded). -/
theorem trade_discarded_when_no_team_resolves (t : TxWeeks)
    (wst : List (ℕ × ℤ)) (startWeek : ℕ) (tr : FleaTrade)
    (h : ∀ e ∈ tr.teams,
      pyFalsyWeek ((tradeTeamGuess wst startWeek (tradeTs tr) e.playersObtained).2) = true) :
    processTrade t wst startWeek tr = t := by
  have hrec : tradeTeamReceived wst startWeek tr = [] :=
    tradeTeamReceived_fold_skip wst startWeek (tradeTs tr) tr.teams [] h
  rw [processTrade, hrec]
  rfl

/-- C6 witness: a trade whose only team entry has an unresolvable week
leaves the weekly buckets untouched. -/
theorem trade_discarded_when_no_team_resolves_witness :
    processTrade (initTxWeeks 1 1) exWst 1
      ⟨some 99, [⟨some 22, [⟨some 20, none⟩]⟩], none, none, none, none⟩
      = initTxWeeks 1 1 := by
  exact trade_discarded_when_no_team_resolves (initTxWeeks 1 1) exWst 1
    ⟨some 99, [⟨some 22, [⟨some 20, none⟩]⟩], none, none, none, none⟩
    (by intro e he; simp at he; subst he; decide)

/- ===================================================================
   C10: weekly bucket keys are created once and never extended
   =================================================================== -/

theorem keys_txAppendMove (t : TxWeeks) (wk : ℕ) (k : TxKind) (e : MoveEvent) :
    (txAppendMove t wk k e).map Prod.fst = t.map Prod.fst := by
  rw [txAppendMove, List.map_map]
  apply List.map_congr_left
  intro p _
  by_cases h : p.1 = wk <;> simp [h]

theorem keys_txAppendTrade (t : TxWeeks) (wk : ℕ) (e : TradeEntry) :
    (txAppendTrade t wk e).map Prod.fst = t.map Prod.fst := by
  rw [txAppendTrade, List.map_map]
  apply List.map_congr_left
  intro p _
  by_cases h : p.1 = wk <;> simp [h]

theorem keys_foldl {α : Type} (f : TxWeeks → α → TxWeeks)
    (hf : ∀ (t : TxWeeks) (x : α), (f t x).map Prod.fst = t.map Prod.fst) :
    ∀ (L : List α) (t : TxWeeks),
      (L.foldl f t).map Prod.fst = t.map Prod.fst
  | [], _ => rfl
  | x :: L, t => by
    rw [List.foldl_cons, keys_foldl f hf L (f t x), hf]

theorem keys_processActivity (wst : List (ℕ × ℤ)) (lo hi : ℤ) (t : TxWeeks)
    (a : Activity) :
    (processActivity wst lo hi t a).map Prod.fst = t.map Prod.fst := by
  obtain ⟨ts0, txo⟩ := a
  cases txo with
  | none =>
    simp only [processActivity]
    split <;> rfl
  | some tx =>
    simp only [processActivity]
    split
    · split
      · rfl
      · split
        · split_ifs <;>
            first
              | apply keys_txAppendMove
              | apply keys_txAppendTrade
              | rfl
        · rfl
    · rfl

theorem keys_processTrade (t : TxWeeks) (wst : List (ℕ × ℤ)) (startWeek : ℕ)
    (tr : FleaTrade) :
    (processTrade t wst startWeek tr).map Prod.fst = t.map Prod.fst := by
  rw [processTrade]
  exact keys_foldl _ (fun t' q => keys_txAppendTrade t' _ _) _ t

theorem keys_processTeamTxItem (wst : List (ℕ × ℤ))
    (startWeek numRegWeeks : ℕ) (teamId : String) (t : TxWeeks)
    (it : TeamTxItem) :
    (processTeamTxItem wst startWeek numRegWeeks teamId t it).map Prod.fst
      = t.map Prod.fst := by
  simp only [processTeamTxItem]
  split
  · rfl
  · split
    · rfl
    · split
      · apply keys_txAppendMove
      · rfl

theorem keys_initTxWeeks (startWeek numRegWeeks : ℕ) :
    (initTxWeeks startWeek numRegWeeks).map Prod.fst
      = List.range' startWeek (numRegWeeks + 1 - startWeek) := by
  rw [initTxWeeks, List.map_map]
  have h : (Prod.fst ∘ fun wk : ℕ => (wk, emptyBuckets)) = id := rfl
  rw [h, List.map_id]

/-- C10: after the whole normalization pass, the weekly transaction map has
exactly one bucket per week in `[start_week, num_regular_season_weeks]` —
the keys created by the initialization, in order, with no key ever added or
removed — and appends aimed at a week key that is not present change
nothing, so events resolved to out-of-range weeks are silently skipped.
(Each bucket carries exactly the four lists adds / claims / drops / trades
by construction of `TxBuckets`.) -/
theorem transactions_by_week_keys (startWeek numRegWeeks : ℕ)
    (wst : List (ℕ × ℤ)) (seasonLo seasonHi : ℤ)
    (activities : List Activity) (fleaTrades : List FleaTrade)
    (teamTx : List (String × List TeamTxItem)) :
    (runTransactionNormalization startWeek numRegWeeks wst seasonLo seasonHi
        activities fleaTrades teamTx).map Prod.fst
      = List.range' startWeek (numRegWeeks + 1 - startWeek) ∧
    (∀ (t : TxWeeks) (wk : ℕ) (k : TxKind) (e : MoveEvent),
        wk ∉ t.map Prod.fst → txAppendMove t wk k e = t) ∧
    (∀ (t : TxWeeks) (wk : ℕ) (e : TradeEntry),
        wk ∉ t.map Prod.fst → txAppendTrade t wk e = t) := by
  refine ⟨?_, ?_, ?_⟩
  · rw [runTransactionNormalization]
    have h3 : ∀ (L : List (String × List TeamTxItem)) (t : TxWeeks),
        (L.foldl (fun t p =>
          p.2.foldl (processTeamTxItem wst startWeek numRegWeeks p.1) t) t).map
            Prod.fst = t.map Prod.fst :=
      keys_foldl _ (fun t' p => keys_foldl _
        (fun t'' it => keys_processTeamTxItem wst startWeek numRegWeeks p.1 t'' it)
        p.2 t')
    rw [h3, keys_foldl _ (fun t' tr => keys_processTrade t' wst startWeek tr),
      keys_foldl _ (fun t' a => keys_processActivity wst seasonLo seasonHi t' a)]
    exact keys_initTxWeeks startWeek numRegWeeks
  · intro t wk k e hwk
    rw [txAppendMove]
    have hcong : ∀ p ∈ t, (if p.1 = wk then (p.1, bucketAppendMove p.2 k e) else p) = p := by
      intro p hp
      rw [if_neg]
      intro hc
      exact hwk (by rw [← hc]; exact List.mem_map_of_mem Prod.fst hp)
    rw [List.map_congr_left hcong]
    simp
  · intro t wk e hwk
    rw [txAppendTrade]
    have hcong : ∀ p ∈ t, (if p.1 = wk then (p.1, bucketAppendTrade p.2 e) else p) = p := by
      intro p hp
      rw [if_neg]
      intro hc
      exact hwk (by rw [← hc]; exact List.mem_map_of_mem Prod.fst hp)
    rw [List.map_congr_left hcong]
    simp

/-- C10 witness: an empty-feed run over weeks 1..3 has exactly the keys
1, 2, 3, and an append aimed at the absent week 5 leaves the buckets
unchanged. -/
theorem transactions_by_week_keys_witness :
    (runTransactionNormalization 1 3 [] 0 0 [] [] []).map Prod.fst
      = List.range' 1 3 ∧
    txAppendMove (initTxWeeks 1 1) 5 .adds ⟨"3", "7"⟩ = initTxWeeks 1 1 := by
  have h := transactions_by_week_keys 1 3 [] 0 0 [] [] []
  exact ⟨h.1, h.2.1 (initTxWeeks 1 1) 5 .adds ⟨"3", "7"⟩ (by decide)⟩

/- ===================================================================
   C9: z-score table
   =================================================================== -/

theorem stableInsert_perm {α : Type} (le : α → α → Bool) (a : α) :
    ∀ (l : List α), (stableInsert le a l).Perm (a :: l)
  | [] => List.Perm.refl _
  | b :: bs => by
    rw [stableInsert]
    split
    · exact ((stableInsert_perm le a bs).cons b).trans (List.Perm.swap a b bs)
    · exact List.Perm.refl _

theorem pySorted_fold_perm {α : Type} (le : α → α → Bool) :
    ∀ (l acc : List α),
      (l.foldl (fun acc a => stableInsert le a acc) acc).Perm (acc ++ l)
  | [], acc => by simp
  | a :: l, acc => by
    rw [List.foldl_cons]
    refine (pySorted_fold_perm le l (stableInsert le a acc)).trans ?_
    refine ((stableInsert_perm le a acc).append_right l).trans ?_
    simpa using List.perm_middle.symm

theorem pySorted_perm {α : Type} (le : α → α → Bool) (l : List α) :
    (pySorted le l).Perm l := by
  simpa [pySorted] using pySorted_fold_perm le l []

theorem numberZRows_ids : ∀ (n : ℕ) (l : List (String × ℚ)),
    (numberZRows n l).map (fun r => r.2.1) = l.map Prod.fst
  | _, [] => rfl
  | n, p :: ps => by
    simp only [numberZRows, List.map_cons]
    rw [numberZRows_ids (n + 1) ps]

theorem numberZRows_length : ∀ (n : ℕ) (l : List (String × ℚ)),
    (numberZRows n l).length = l.length
  | _, [] => rfl
  | n, p :: ps => by
    simp only [numberZRows, List.length_cons]
    rw [numberZRows_length (n + 1) ps]

/-- C9: when every team's z-score is undefined the z-score table is left
empty; when some but not all are undefined, every undefined value is
coerced to zero before ranking and no row is dropped — the table has
exactly one row per team, its team column a permutation of the input
teams. -/
theorem z_score_table_spec (rs : List (String × Option ℚ)) :
    ((∀ p ∈ rs, p.2 = none) → zScoreTable rs = []) ∧
    ((∃ p ∈ rs, p.2 = none) → (∃ p ∈ rs, p.2 ≠ none) →
      (zScoreTable rs).length = rs.length ∧
      ((zScoreTable rs).map (fun r => r.2.1)).Perm (rs.map Prod.fst)) := by
  constructor
  · intro h
    rw [zScoreTable, if_pos]
    simpa using h
  · intro _ h2
    have hneg : ¬ (rs.all (fun p => p.2 = none) = true) := by
      obtain ⟨q, hq, hqne⟩ := h2
      intro hall
      exact hqne (by simpa using List.all_eq_true.mp hall q hq)
    rw [zScoreTable, if_neg hneg]
    constructor
    · rw [numberZRows_length, sortDescQ,
        (pySorted_perm _ (rs.map (fun p => (p.1, pyCoerceZ p.2)))).length_eq,
        List.length_map]
    · rw [numberZRows_ids, sortDescQ]
      have hperm := (pySorted_perm (fun a b : String × ℚ =>
          decide (Prod.snd b ≤ Prod.snd a))
        (rs.map (fun p => (p.1, pyCoerceZ p.2)))).map Prod.fst
      refine hperm.trans ?_
      rw [List.map_map]
      exact List.Perm.refl _

/-- C9 witness: with team a undefined and team b at z-score 1, the table
keeps both rows; with every team undefined, the table is empty. -/
theorem z_score_table_spec_witness :
    (zScoreTable [("a", none), ("b", some (1 : ℚ))]).length = 2 ∧
    zScoreTable [("c", (none : Option ℚ))] = [] := by
  refine ⟨((z_score_table_spec [("a", none), ("b", some (1 : ℚ))]).2
    (by decide) (by decide)).1, ?_⟩
  exact (z_score_table_spec [("c", (none : Option ℚ))]).1 (by decide)

/- ===================================================================
   C7: single negative-net trade and the best/worst trade lists
   =================================================================== -/

theorem awardsBody_trades (prev : AwardsState) (teams : List AwardsTeam)
    (bench : List String) (cps : List (String × ℚ))
    (faCands dropCands : List (String × String × ℚ))
    (trades : List TradeEntry)
    (hne : awardsTradeRows teams cps trades ≠ []) :
    (awardsBody prev teams bench cps faCands dropCands trades).bestTrades
      = (sortDescQ (fun r => r.net) (awardsTradeRows teams cps trades)).take 1 ∧
    (awardsBody prev teams bench cps faCands dropCands trades).worstTrades
      = (sortAscQ (fun r => r.net) (awardsTradeRows teams cps trades)).take 1 := by
  have hemp : (awardsTradeRows teams cps trades).isEmpty = false := by
    simp [List.isEmpty_iff, hne]
  constructor <;> simp [awardsBody, hemp]

theorem awards_fold_trades (teams : List AwardsTeam) (bench : List String)
    (cps cfas : List (String × ℚ)) (faCands : List (String × String × ℚ))
    (trades : List TradeEntry) (r : TradeAwardRow)
    (hr : awardsTradeRows teams cps trades = [r]) :
    ∀ (ds : List MoveEvent) (st : AwardsState × List (String × String × ℚ)),
      ds ≠ [] →
      ((ds.foldl (awardsDropStep teams bench cps cfas faCands trades) st).1).bestTrades
        = [r] ∧
      ((ds.foldl (awardsDropStep teams bench cps cfas faCands trades) st).1).worstTrades
        = [r]
  | [], _, h => absurd rfl h
  | [d], st, _ => by
    rw [List.foldl_cons, List.foldl_nil]
    have hb := awardsBody_trades st.1 teams bench cps faCands
      (st.2 ++ [dropCandidate cps cfas d]) trades (by rw [hr]; exact List.cons_ne_nil r [])
    rw [hr] at hb
    exact ⟨by rw [awardsDropStep]; exact hb.1, by rw [awardsDropStep]; exact hb.2⟩
  | d :: d2 :: ds, st, _ => by
    rw [List.foldl_cons]
    exact awards_fold_trades teams bench cps cfas faCands trades r hr (d2 :: ds)
      _ (List.cons_ne_nil d2 ds)

/-- C7 counterexample: with exactly one drop event (so the awards block
runs) and exactly one trade row — received player 1 worth 15.0, sent player
2 worth 20.0, net −5.0 — the single negative-net trade row is placed in the
worst-trades output and ALSO in the best-trades output, contradicting the
claim that it must not appear among the best trades. -/
theorem single_trade_in_best_and_worst :
    awardsTradeRows [exTeamA] exPlayers7 [.row exTradeRow7]
      = [⟨"Team A", "Mgr A", ["1"], ["2"], -5⟩] ∧
    (computeAwards [exTeamA] exBench exPlayers7 [] [] [] [⟨"A", "9"⟩]
        [.row exTradeRow7]).bestTrades
      = [⟨"Team A", "Mgr A", ["1"], ["2"], -5⟩] ∧
    (computeAwards [exTeamA] exBench exPlayers7 [] [] [] [⟨"A", "9"⟩]
        [.row exTradeRow7]).worstTrades
      = [⟨"Team A", "Mgr A", ["1"], ["2"], -5⟩] := by
  have hrows : awardsTradeRows [exTeamA] exPlayers7 [.row exTradeRow7]
      = [⟨"Team A", "Mgr A", ["1"], ["2"], -5⟩] := by
    have e20 : List.filterMap
        (fun pid => List.lookup pid [("1", (15 : ℚ)), ("2", (20 : ℚ))]) ["2"]
        = [20] := rfl
    simp [awardsTradeRows, tradeEntryRecIds, tradeEntrySentIds,
      tradeEntryTeamId, teamLookup, exTeamA, exPlayers7, exTradeRow7, e20]
    norm_num
  have hf := awards_fold_trades [exTeamA] exBench exPlayers7 [] []
    [.row exTradeRow7] ⟨"Team A", "Mgr A", ["1"], ["2"], -5⟩ hrows
    [⟨"A", "9"⟩] (initAwards, []) (List.cons_ne_nil _ [])
  exact ⟨hrows, hf.1, hf.2⟩

/-- C7 (amended): when the awards block runs at all — which, because the
whole block is nested inside the drops loop, requires at least one drop
event that week — and the week's trades bucket yields exactly one eligible
trade award row (nonempty received and sent lists, team present), that row
is both the single worst trade and the single best trade: a sole row is
simultaneously the maximum and the minimum of the net-points ordering.
Rows with no received or no sent players yield no award row at all. -/
theorem single_trade_is_best_and_worst (teams : List AwardsTeam)
    (bench : List String) (cps cfas : List (String × ℚ))
    (adds claims drops : List MoveEvent) (trades : List TradeEntry)
    (r : TradeAwardRow) (hd : drops ≠ [])
    (hr : awardsTradeRows teams cps trades = [r]) :
    (computeAwards teams bench cps cfas adds claims drops trades).worstTrades
      = [r] ∧
    (computeAwards teams bench cps cfas adds claims drops trades).bestTrades
      = [r] ∧
    (∀ te ∈ trades, tradeEntryRecIds te = [] ∨ tradeEntrySentIds te = [] →
      awardsTradeRows teams cps [te] = []) := by
  have hf := awards_fold_trades teams bench cps cfas
    (faCandidates trades cps adds claims) trades r hr drops (initAwards, []) hd
  refine ⟨hf.2, hf.1, ?_⟩
  intro te _ hcase
  simp [awardsTradeRows, hcase]

/-- C7 witness: instantiating the amended claim at the one-drop, one-trade
example yields that single row as both worst and best trade. -/
theorem single_trade_is_best_and_worst_witness :
    (computeAwards [exTeamA] exBench exPlayers7 [] [] [] [⟨"A", "9"⟩]
        [.row exTradeRow7]).worstTrades
      = [⟨"Team A", "Mgr A", ["1"], ["2"], -5⟩] ∧
    (computeAwards [exTeamA] exBench exPlayers7 [] [] [] [⟨"A", "9"⟩]
        [.row exTradeRow7]).bestTrades
      = [⟨"Team A", "Mgr A", ["1"], ["2"], -5⟩] := by
  have h := single_trade_is_best_and_worst [exTeamA] exBench exPlayers7 []
    [] [] [⟨"A", "9"⟩] [.row exTradeRow7]
    ⟨"Team A", "Mgr A", ["1"], ["2"], -5⟩
    (List.cons_ne_nil _ [])
    (by
      have e20 : List.filterMap
          (fun pid => List.lookup pid [("1", (15 : ℚ)), ("2", (20 : ℚ))]) ["2"]
          = [20] := rfl
      simp [awardsTradeRows, tradeEntryRecIds, tradeEntrySentIds,
        tradeEntryTeamId, teamLookup, exTeamA, exPlayers7, exTradeRow7, e20]
      norm_num)
  exact ⟨h.1, h.2.1⟩

/- ===================================================================
   C8: started free-agent pickups and the drops-loop nesting
   =================================================================== -/

/-- C8, evaluation at the failing input: team T picked up player P this
week, P is on T's roster started at WR (a non-bench slot), so the claim —
and spec section 4.6 — require T/P to be the best-free-agent-pickup winner;
but because the whole awards block is nested inside the drops loop, a week
with no drop events computes no FA award at all and every award field
keeps its initial empty value. -/
theorem started_pickup_without_drops_gets_no_award :
    faCandidates [] [("P", 25/2)] [⟨"T", "P"⟩] [] ≠ [] ∧
    isStartedPickup [exTeamT] exBench "T" "P" = true ∧
    computeAwards [exTeamT] exBench [("P", 25/2)] [] [⟨"T", "P"⟩] [] [] []
      = initAwards ∧
    (computeAwards [exTeamT] exBench [("P", 25/2)] [] [⟨"T", "P"⟩] [] []
        []).bestFA = [] := by
  refine ⟨?_, by decide, rfl, rfl⟩
  intro h
  simp [faCandidates, tradeReceivedByTeam] at h
